import Mathlib

/-!
Verification of the result-extraction component of the Resume-Shortlisting
service (`parse_crew_result` in `src/api.py`).

The parser is embedded shallowly: Python strings become `List Char` (wrapped
into `String` at the data-model boundary), Python floats become `ℚ` (every
numeric operation the parser performs — decimal-token parsing, division by
ten, clamping — is exact), and the line-by-line scanning loop becomes a
`List.foldl` over an explicit state record.  All definitions are executable
so that concrete reports can be evaluated by `decide`.
-/

/-- Whitespace as recognised by Python `str.strip` / `\s` (ASCII part). -/
def isPySpace (c : Char) : Bool :=
  c == ' ' || c == '\t' || c == '\n' || c == '\r' || c == '\x0b' || c == '\x0c'

/-- Python `str.strip()` on a character list. -/
def pyStrip (l : List Char) : List Char :=
  ((l.dropWhile isPySpace).reverse.dropWhile isPySpace).reverse

/-- Python `s.split(sep)` for a single-character separator. -/
def splitOnChar (sep : Char) : List Char → List (List Char)
  | [] => [[]]
  | c :: cs =>
    if c = sep then [] :: splitOnChar sep cs
    else
      match splitOnChar sep cs with
      | [] => [[c]]
      | p :: ps => (c :: p) :: ps

/-- Python substring test `pat in s`. -/
def containsSub (pat : List Char) : List Char → Bool
  | [] => pat.isPrefixOf []
  | c :: cs => pat.isPrefixOf (c :: cs) || containsSub pat cs

/-- Python `s.replace(pat, rep)`: left-to-right, non-overlapping.  The
fuel argument makes the recursion structural; one unit of fuel per
consumed character is always enough. -/
def replaceSubAux (pat rep : List Char) : Nat → List Char → List Char
  | _, [] => []
  | 0, l => l
  | fuel + 1, c :: cs =>
    if pat ≠ [] ∧ pat.isPrefixOf (c :: cs) then
      rep ++ replaceSubAux pat rep fuel (cs.drop (pat.length - 1))
    else
      c :: replaceSubAux pat rep fuel cs

def replaceSub (pat rep l : List Char) : List Char :=
  replaceSubAux pat rep l.length l

/-- Python `str.lower()` (ASCII part). -/
def lowerL (l : List Char) : List Char := l.map Char.toLower

/-- Numeric value of a list of decimal digits. -/
def digitsVal (ds : List Char) : Nat :=
  ds.foldl (fun a c => 10 * a + (c.toNat - 48)) 0

/-- First match of the regex `\d+(?:\.\d+)?`, returned as
(integer digits, fraction digits); `none` when no digit occurs. -/
def firstNumTok : List Char → Option (List Char × List Char)
  | [] => none
  | c :: cs =>
    if c.isDigit then
      let ds := (c :: cs).takeWhile Char.isDigit
      match (c :: cs).dropWhile Char.isDigit with
      | '.' :: r :: _ =>
        if r.isDigit then
          some (ds, (((c :: cs).dropWhile Char.isDigit).drop 1).takeWhile Char.isDigit)
        else some (ds, [])
      | _ => some (ds, [])
    else firstNumTok cs

/-- Exact value of a matched numeric token, as a rational. -/
def tokVal (t : List Char × List Char) : ℚ :=
  mkRat (digitsVal t.1 * 10 ^ t.2.length + digitsVal t.2) (10 ^ t.2.length)

/-- Python `max(a, b)` on rationals. -/
def pyMax (a b : ℚ) : ℚ := if a ≤ b then b else a

/-- Python `min(a, b)` on rationals. -/
def pyMin (a b : ℚ) : ℚ := if b ≤ a then b else a

/-- Python `re.split(r'(?:\d+\.\s*|\n)', s)`: split on numbered-list markers
and newlines.  A match consumes at least one character, so one unit of fuel
per character is always enough. -/
def qSplitAux : Nat → List Char → List Char → List (List Char)
  | 0, l, acc => [acc.reverse ++ l]
  | _ + 1, [], acc => [acc.reverse]
  | fuel + 1, c :: cs, acc =>
    if c = '\n' then acc.reverse :: qSplitAux fuel cs []
    else if c.isDigit then
      match (c :: cs).dropWhile Char.isDigit with
      | '.' :: rs => acc.reverse :: qSplitAux fuel (rs.dropWhile isPySpace) []
      | _ => qSplitAux fuel cs (c :: acc)
    else qSplitAux fuel cs (c :: acc)

def qSplit (l : List Char) : List (List Char) := qSplitAux (l.length + 1) l []

/-- Append a question mark unless the fragment already ends with one. -/
def addQm (l : List Char) : List Char :=
  if l.getLast? = some '?' then l else l ++ ['?']

/-- The `<br>` variants normalised to newlines before field parsing. -/
def brReplace (l : List Char) : List Char :=
  replaceSub "<br />".data "\n".data
    (replaceSub "<br/>".data "\n".data
      (replaceSub "<br>".data "\n".data l))

/-- One evaluated candidate (`CandidateEvaluation` in `src/api.py`). -/
structure CandidateEvaluation where
  name : String
  mobile : String
  score : ℚ
  questions : List String
  reasoning : String
deriving DecidableEq

/-- The structured response (`ShortlistResponse` in `src/api.py`). -/
structure ShortlistResponse where
  job_analysis : String
  candidates : List CandidateEvaluation
  total_candidates : Nat
deriving DecidableEq

/-- Header recognition: the three column markers on one line. -/
def isHeaderLine (line : List Char) : Bool :=
  containsSub "| Name |".data line && containsSub "| Mobile |".data line &&
    containsSub "| Score |".data line

/-- Guard for entering the strict-table branch: the three markers occur
anywhere in the report. -/
def hasHeaderMarkers (t : List Char) : Bool :=
  containsSub "| Name |".data t && containsSub "| Mobile |".data t &&
    containsSub "| Score |".data t

/-- Cells of a table row: split on the delimiter, drop the outer empty
cells, strip each. -/
def rowCells (line : List Char) : List (List Char) :=
  ((splitOnChar '|' line).drop 1).dropLast.map pyStrip

/-- Strict-tier score normalisation: first numeric token, divide by ten
when above ten, clamp to [1, 10]; default five when no token. -/
def parseScoreT1 (s : List Char) : ℚ :=
  match firstNumTok s with
  | some t =>
    let v := tokVal t
    let w := if 10 < v then mkRat (digitsVal t.1 * 10 ^ t.2.length + digitsVal t.2) (10 ^ (t.2.length + 1)) else v
    pyMax 1 (pyMin 10 w)
  | none => 5

/-- Strict-tier question extraction: split on numbered markers or
newlines, strip, drop fragments of length at most five, guarantee a
trailing question mark; default list when nothing survives. -/
def parseQuestionsT1 (s : List Char) : List String :=
  let parts := if s = [] then [] else qSplit s
  let qs := parts.filterMap (fun p =>
    let p' := pyStrip p
    if p' ≠ [] ∧ 5 < p'.length then some (String.mk (addQm p')) else none)
  if qs = [] then ["Tell me about your experience relevant to this role?"] else qs

/-- Missing-value sentinel test used for names and mobiles in the strict
tier (empty, "not found", "n/a"; case-insensitive). -/
def isMissingField (l : List Char) : Bool :=
  l.isEmpty || lowerL l == "not found".data || lowerL l == "n/a".data

def candName (k : Nat) : String := "Candidate " ++ toString k

/-- Build the candidate record from a strict-tier data row; `k` is the
number of candidates parsed so far. -/
def mkCandT1 (line : List Char) (k : Nat) : CandidateEvaluation :=
  { name := if isMissingField ((rowCells line).getD 0 []) then candName (k + 1)
            else String.mk ((rowCells line).getD 0 [])
    mobile := if isMissingField ((rowCells line).getD 1 []) then "Not available"
              else String.mk ((rowCells line).getD 1 [])
    score := parseScoreT1 ((rowCells line).getD 2 [])
    questions := parseQuestionsT1 (brReplace ((rowCells line).getD 3 []))
    reasoning := String.mk (brReplace ((rowCells line).getD 4 [])) }

/-- State of the strict-tier line scan. -/
structure T1State where
  header_found : Bool
  table_started : Bool
  candidates : List CandidateEvaluation
  job_analysis : List Char
deriving DecidableEq

def initT1 : T1State := ⟨false, false, [], []⟩

/-- One iteration of the strict-tier loop over a raw report line. -/
def t1Step (st : T1State) (raw : List Char) : T1State :=
  let line := pyStrip raw
  if isHeaderLine line = true then { st with header_found := true }
  else if (st.header_found && ['|'].isPrefixOf line && line.contains '-') = true then
    { st with table_started := true }
  else if (st.table_started && ['|'].isPrefixOf line && ['|'].isSuffixOf line) = true then
    if 5 ≤ (rowCells line).length then
      { st with candidates := st.candidates ++ [mkCandT1 line st.candidates.length] }
    else st
  else if (!st.header_found) = true then
    if (!line.isEmpty && !(("```".data).isPrefixOf line)) = true then
      { st with job_analysis := st.job_analysis ++ line ++ ['\n'] }
    else st
  else st

def pyLines (t : List Char) : List (List Char) := splitOnChar '\n' t

/-- Tier 1: the strict table scan (runs only when the header markers occur
in the report). -/
def tier1 (t : List Char) : T1State :=
  if hasHeaderMarkers t then (pyLines t).foldl t1Step initT1 else initT1

/-- Loose-tier score handling: first numeric token (default five), then
clamp — no division by ten in this tier. -/
def parseScoreT2 (s : List Char) : ℚ :=
  pyMax 1 (pyMin 10 (match firstNumTok s with
    | some t => tokVal t
    | none => 5))

/-- Loose-tier question extraction: split on newlines only, strip,
guarantee a trailing question mark; default list when nothing survives. -/
def parseQuestionsT2 (s : List Char) : List String :=
  let qs := (splitOnChar '\n' s).filterMap (fun q =>
    if pyStrip q = [] then none else some (String.mk (addQm (pyStrip q))))
  if qs = [] then ["Tell me about your experience relevant to this role?"] else qs

/-- Build the candidate record from a loose-tier line; `k` is the number
of candidates parsed so far.  Names and mobiles are defaulted only when
empty (no sentinel test in this tier). -/
def mkCandT2 (line : List Char) (k : Nat) : CandidateEvaluation :=
  { name := if pyStrip ((splitOnChar '|' line).getD 1 []) = [] then candName (k + 1)
            else String.mk (pyStrip ((splitOnChar '|' line).getD 1 []))
    mobile := if pyStrip ((splitOnChar '|' line).getD 2 []) = [] then "Not available"
              else String.mk (pyStrip ((splitOnChar '|' line).getD 2 []))
    score := parseScoreT2 (pyStrip ((splitOnChar '|' line).getD 3 []))
    questions := parseQuestionsT2 (pyStrip ((splitOnChar '|' line).getD 4 []))
    reasoning := if pyStrip ((splitOnChar '|' line).getD 5 []) = [] then "Analysis completed"
                 else String.mk (pyStrip ((splitOnChar '|' line).getD 5 [])) }

/-- One iteration of the loose-tier loop over a raw report line. -/
def t2Step (cs : List CandidateEvaluation) (line : List Char) :
    List CandidateEvaluation :=
  if line.contains '|' && 6 ≤ (splitOnChar '|' line).length then
    if containsSub "Name".data line && containsSub "Mobile".data line then cs
    else if containsSub "---".data line || containsSub "===".data line then cs
    else if 6 ≤ (splitOnChar '|' line).length then cs ++ [mkCandT2 line cs.length]
    else cs
  else cs

/-- Tier 2: the loose table scan. -/
def tier2 (t : List Char) : List CandidateEvaluation :=
  (pyLines t).foldl t2Step []

/-- The tier-3 placeholder candidate. -/
def fallbackCandidate : CandidateEvaluation :=
  { name := "Candidate 1"
    mobile := "Contact information not extracted"
    score := 5
    questions := ["Tell me about your experience relevant to this role?",
                  "What interests you about this position?"]
    reasoning := "Resume processed but detailed extraction needs manual review" }

/-- The extractor `parse_crew_result` of `src/api.py`: strict scan, loose
scan when the strict one found nothing and the delimiter occurs, placeholder
when both found nothing. -/
def parse_crew_result (result_text : String) (total_candidates : Nat) :
    ShortlistResponse :=
  let t := result_text.data
  let st := tier1 t
  let ja0 := pyStrip st.job_analysis
  let cs1 := st.candidates
  let cs2 := if cs1 = [] ∧ t.contains '|' = true then tier2 t else cs1
  let cs3 := if cs2 = [] then [fallbackCandidate] else cs2
  { job_analysis := if ja0 = [] then "Job requirements analysis completed." else String.mk ja0
    candidates := cs3
    total_candidates := total_candidates }

/-! ### Helper lemmas -/

theorem mkRat_int_eq_div (a : Int) (b : Nat) :
    mkRat a b = (a : ℚ) / (b : ℚ) := by
  rw [Rat.mkRat_eq_divInt, Rat.divInt_eq_div]
  push_cast
  ring

theorem pyMax_pyMin_bounds (w : ℚ) :
    1 ≤ pyMax 1 (pyMin 10 w) ∧ pyMax 1 (pyMin 10 w) ≤ 10 := by
  unfold pyMax pyMin
  split_ifs <;> constructor <;> linarith

theorem parseScoreT1_bounds (s : List Char) :
    1 ≤ parseScoreT1 s ∧ parseScoreT1 s ≤ 10 := by
  rcases h : firstNumTok s with _ | t
  · simp only [parseScoreT1, h]
    norm_num
  · simp only [parseScoreT1, h]
    exact pyMax_pyMin_bounds _

theorem parseScoreT2_bounds (s : List Char) :
    1 ≤ parseScoreT2 s ∧ parseScoreT2 s ≤ 10 := by
  unfold parseScoreT2
  exact pyMax_pyMin_bounds _

theorem addQm_getLast (l : List Char) : (addQm l).getLast? = some '?' := by
  unfold addQm
  split_ifs with h
  · exact h
  · exact List.getLast?_concat _

theorem parseQuestionsT1_qmark (s : List Char) :
    ∀ q ∈ parseQuestionsT1 s, q.data.getLast? = some '?' := by
  intro q hq
  simp only [parseQuestionsT1] at hq
  split_ifs at hq
  all_goals
    first
    | (rcases List.mem_singleton.mp hq with rfl; decide)
    | (rcases List.mem_filterMap.mp hq with ⟨p, _, hp⟩
       by_cases hc : pyStrip p ≠ [] ∧ 5 < (pyStrip p).length
       · rw [if_pos hc] at hp
         have he := Option.some.inj hp
         subst he
         exact addQm_getLast _
       · rw [if_neg hc] at hp
         cases hp)

theorem parseQuestionsT2_qmark (s : List Char) :
    ∀ q ∈ parseQuestionsT2 s, q.data.getLast? = some '?' := by
  intro q hq
  simp only [parseQuestionsT2] at hq
  split_ifs at hq
  all_goals
    first
    | (rcases List.mem_singleton.mp hq with rfl; decide)
    | (rcases List.mem_filterMap.mp hq with ⟨p, _, hp⟩
       by_cases hc : pyStrip p = []
       · rw [if_pos hc] at hp
         cases hp
       · rw [if_neg hc] at hp
         have he := Option.some.inj hp
         subst he
         exact addQm_getLast _)

theorem mkCandT1_score (l : List Char) (k : Nat) :
    (mkCandT1 l k).score = parseScoreT1 ((rowCells l).getD 2 []) := by
  simp only [mkCandT1]

theorem mkCandT1_questions (l : List Char) (k : Nat) :
    (mkCandT1 l k).questions =
      parseQuestionsT1 (brReplace ((rowCells l).getD 3 [])) := by
  simp only [mkCandT1]

theorem mkCandT2_score (l : List Char) (k : Nat) :
    (mkCandT2 l k).score = parseScoreT2 (pyStrip ((splitOnChar '|' l).getD 3 [])) := by
  simp only [mkCandT2]

theorem mkCandT2_questions (l : List Char) (k : Nat) :
    (mkCandT2 l k).questions =
      parseQuestionsT2 (pyStrip ((splitOnChar '|' l).getD 4 [])) := by
  simp only [mkCandT2]

theorem mkCandT1_name_missing (l : List Char) (k : Nat)
    (h : isMissingField ((rowCells l).getD 0 []) = true) :
    (mkCandT1 l k).name = candName (k + 1) := by
  simp only [mkCandT1]
  rw [h]
  simp

theorem t1Step_cands_shape (st : T1State) (raw : List Char) :
    (t1Step st raw).candidates = st.candidates ∨
      (t1Step st raw).candidates =
        st.candidates ++ [mkCandT1 (pyStrip raw) st.candidates.length] := by
  unfold t1Step
  simp only [apply_ite T1State.candidates]
  split_ifs <;> simp

theorem t2Step_cands_shape (cs : List CandidateEvaluation) (raw : List Char) :
    t2Step cs raw = cs ∨ t2Step cs raw = cs ++ [mkCandT2 raw cs.length] := by
  unfold t2Step
  split_ifs <;> simp

theorem foldl_t1_inv (P : CandidateEvaluation → Prop)
    (hP : ∀ l k, P (mkCandT1 l k)) (lines : List (List Char)) :
    ∀ st : T1State, (∀ c ∈ st.candidates, P c) →
      ∀ c ∈ (lines.foldl t1Step st).candidates, P c := by
  induction lines with
  | nil => intro st h; simpa using h
  | cons l ls ih =>
    intro st h
    simp only [List.foldl_cons]
    apply ih
    intro c hc
    rcases t1Step_cands_shape st l with hs | hs <;> rw [hs] at hc
    · exact h c hc
    · rcases List.mem_append.mp hc with h1 | h1
      · exact h c h1
      · rcases List.mem_singleton.mp h1 with rfl
        exact hP _ _

theorem foldl_t2_inv (P : CandidateEvaluation → Prop)
    (hP : ∀ l k, P (mkCandT2 l k)) (lines : List (List Char)) :
    ∀ cs : List CandidateEvaluation, (∀ c ∈ cs, P c) →
      ∀ c ∈ lines.foldl t2Step cs, P c := by
  induction lines with
  | nil => intro cs h; simpa using h
  | cons l ls ih =>
    intro cs h
    simp only [List.foldl_cons]
    apply ih
    intro c hc
    rcases t2Step_cands_shape cs l with hs | hs <;> rw [hs] at hc
    · exact h c hc
    · rcases List.mem_append.mp hc with h1 | h1
      · exact h c h1
      · rcases List.mem_singleton.mp h1 with rfl
        exact hP _ _

theorem parse_result_cands_cases (t : String) (n : Nat) :
    (parse_crew_result t n).candidates = [fallbackCandidate] ∨
      (parse_crew_result t n).candidates = (tier1 t.data).candidates ∨
      (parse_crew_result t n).candidates = tier2 t.data := by
  simp only [parse_crew_result]
  split_ifs <;> simp

theorem parse_cands_inv (P : CandidateEvaluation → Prop)
    (h1 : ∀ l k, P (mkCandT1 l k)) (h2 : ∀ l k, P (mkCandT2 l k))
    (h3 : P fallbackCandidate) (t : String) (n : Nat) :
    ∀ c ∈ (parse_crew_result t n).candidates, P c := by
  intro c hc
  rcases parse_result_cands_cases t n with h | h | h <;> rw [h] at hc
  · rcases List.mem_singleton.mp hc with rfl
    exact h3
  · unfold tier1 at hc
    split_ifs at hc
    · exact foldl_t1_inv P h1 _ initT1 (by simp [initT1]) c hc
    · simp [initT1] at hc
  · exact foldl_t2_inv P h2 _ [] (by simp) c hc

/-- A strict-tier data row in the sense of the table scan: not a header
line, starts and ends with the delimiter, contains no dash (so it is not
swallowed by the separator check), and yields at least five cells. -/
def isGoodRow (r : List Char) : Bool :=
  !(isHeaderLine (pyStrip r)) && ['|'].isPrefixOf (pyStrip r) &&
    ['|'].isSuffixOf (pyStrip r) && !((pyStrip r).contains '-') &&
    decide (5 ≤ (rowCells (pyStrip r)).length)

/-- The candidates produced by the strict tier from a list of data rows,
with the running ordinal `k`. -/
def rowsToCands (k : Nat) : List (List Char) → List CandidateEvaluation
  | [] => []
  | r :: rs => mkCandT1 (pyStrip r) k :: rowsToCands (k + 1) rs

theorem rowsToCands_length (rows : List (List Char)) :
    ∀ k, (rowsToCands k rows).length = rows.length := by
  induction rows with
  | nil => intro k; rfl
  | cons r rs ih => intro k; simp [rowsToCands, ih]

theorem rowsToCands_ne_nil (k : Nat) (rows : List (List Char))
    (h : rows ≠ []) : rowsToCands k rows ≠ [] := by
  cases rows with
  | nil => exact absurd rfl h
  | cons r rs => simp [rowsToCands]

theorem t1Step_header (hf tb : Bool) (cs : List CandidateEvaluation)
    (ja raw : List Char) (h : isHeaderLine (pyStrip raw) = true) :
    t1Step ⟨hf, tb, cs, ja⟩ raw = ⟨true, tb, cs, ja⟩ := by
  unfold t1Step
  rw [if_pos h]

theorem t1Step_sep (tb : Bool) (cs : List CandidateEvaluation)
    (ja raw : List Char)
    (h1 : isHeaderLine (pyStrip raw) = false)
    (h2 : ['|'].isPrefixOf (pyStrip raw) = true)
    (h3 : (pyStrip raw).contains '-' = true) :
    t1Step ⟨true, tb, cs, ja⟩ raw = ⟨true, true, cs, ja⟩ := by
  unfold t1Step
  rw [if_neg (by rw [h1]; exact Bool.false_ne_true),
    if_pos (show (true && ['|'].isPrefixOf (pyStrip raw) &&
      (pyStrip raw).contains '-') = true by rw [h2, h3]; rfl)]

theorem t1Step_row (cs : List CandidateEvaluation) (ja raw : List Char)
    (hr : isGoodRow raw = true) :
    t1Step ⟨true, true, cs, ja⟩ raw =
      ⟨true, true, cs ++ [mkCandT1 (pyStrip raw) cs.length], ja⟩ := by
  simp only [isGoodRow, Bool.and_eq_true, Bool.not_eq_true',
    decide_eq_true_eq] at hr
  obtain ⟨⟨⟨⟨hh, hp⟩, hs⟩, hd⟩, hc⟩ := hr
  unfold t1Step
  rw [if_neg (by rw [hh]; exact Bool.false_ne_true),
    if_neg (show ¬(true && ['|'].isPrefixOf (pyStrip raw) &&
      (pyStrip raw).contains '-') = true by rw [hd]; simp),
    if_pos (show (true && ['|'].isPrefixOf (pyStrip raw) &&
      ['|'].isSuffixOf (pyStrip raw)) = true by rw [hp, hs]; rfl),
    if_pos hc]

theorem t1_fold_rows (rows : List (List Char)) :
    ∀ (cs : List CandidateEvaluation) (ja : List Char),
      (∀ r ∈ rows, isGoodRow r = true) →
      rows.foldl t1Step ⟨true, true, cs, ja⟩ =
        ⟨true, true, cs ++ rowsToCands cs.length rows, ja⟩ := by
  induction rows with
  | nil => intro cs ja _; simp [rowsToCands]
  | cons r rs ih =>
    intro cs ja h
    have hr := h r (List.mem_cons_self r rs)
    simp only [List.foldl_cons]
    rw [t1Step_row cs ja r hr]
    have hrec := ih (cs ++ [mkCandT1 (pyStrip r) cs.length]) ja
      (fun x hx => h x (List.mem_cons_of_mem _ hx))
    simp only [List.length_append, List.length_singleton] at hrec
    rw [hrec]
    simp [rowsToCands, List.append_assoc]

/-- A report that the strict tier fully parses: a recognised header line,
a separator line, then data rows only. -/
theorem parse_wellformed (t : String) (n : Nat) (hdr sep : List Char)
    (rows : List (List Char))
    (hsplit : pyLines t.data = hdr :: sep :: rows)
    (hm : hasHeaderMarkers t.data = true)
    (hhdr : isHeaderLine (pyStrip hdr) = true)
    (hsep1 : isHeaderLine (pyStrip sep) = false)
    (hsep2 : ['|'].isPrefixOf (pyStrip sep) = true)
    (hsep3 : (pyStrip sep).contains '-' = true)
    (hrows : ∀ r ∈ rows, isGoodRow r = true)
    (hne : rows ≠ []) :
    (parse_crew_result t n).candidates = rowsToCands 0 rows := by
  have htier : tier1 t.data = ⟨true, true, rowsToCands 0 rows, []⟩ := by
    unfold tier1
    rw [if_pos hm, hsplit]
    simp only [List.foldl_cons]
    rw [show initT1 = (⟨false, false, [], []⟩ : T1State) from rfl]
    rw [t1Step_header false false [] [] hdr hhdr]
    rw [t1Step_sep false [] [] sep hsep1 hsep2 hsep3]
    rw [t1_fold_rows rows [] [] hrows]
    simp
  have hnn : rowsToCands 0 rows ≠ [] := rowsToCands_ne_nil 0 rows hne
  have hc1 : ¬(rowsToCands 0 rows = [] ∧ t.data.contains '|' = true) :=
    fun hx => hnn hx.1
  simp only [parse_crew_result, htier]
  rw [if_neg hc1, if_neg hnn]

theorem mkRat_pow_succ_eq_div_ten (n : Int) (L : Nat) :
    mkRat n (10 ^ (L + 1)) = mkRat n (10 ^ L) / 10 := by
  rw [mkRat_int_eq_div, mkRat_int_eq_div]
  push_cast
  rw [div_div, pow_succ]

/-! ### Concrete reports -/

def exC3 : String := "Results\n| Bob | 12345 | 95 | Tell me more | Good |"

def exC4 : String := "| Name | Mobile | Score | Questions | Reasoning |\n|---|---|---|---|---|\n| Jane Doe | 555-1234 | 8 | Why here | Strong |\n| Bob Smith | 5551234 | 7 | What next | Good |"

def exC5 : String := "| Name | Mobile | Score | Questions | Reasoning |\n|---|---|---|---|---|\n| Carol-Ann | 11111 | 6 | Where to start | Nice |\n| Dave | 22222 | 9 | When can you join | Solid |"

def exC6 : String := "| Name | Mobile | Score | Questions | Reasoning |\n|---|---|---|---|---|\n| Jane Doe | 555-1234 | 8/10 | 1. Tell me about X | Strong fit |"

def exC7 : String := "Results\n| N/A | 12345 | 8 | What and why | Good |"

def exW4 : String := "| Name | Mobile | Score | Questions | Reasoning |\n|---|---|---|---|---|\n| Alice | 12345 | 9 | Why us today | Good fit |\n| Bob | 67890 | 7 | What comes next | Fine |"

def exW7 : String := "| Name | Mobile | Score | Questions | Reasoning |\n|---|---|---|---|---|\n| N/A | 12345 | 8 | Anything else today | Ok |"

/-! ### Claims -/

/-- Claim C1: the extractor is total and never returns an empty candidate
list; when neither tier parses any row it returns exactly the single
placeholder candidate. -/
theorem parse_crew_result_never_empty (t : String) (n : Nat) :
    (parse_crew_result t n).candidates ≠ [] ∧
      ((tier1 t.data).candidates = [] → tier2 t.data = [] →
        (parse_crew_result t n).candidates = [fallbackCandidate]) := by
  constructor
  · simp only [parse_crew_result]
    split_ifs <;> simp_all
  · intro h1 h2
    simp only [parse_crew_result, h1, h2]
    split_ifs <;> simp_all

theorem parse_crew_result_never_empty_witness :
    (parse_crew_result "plain prose with no table" 3).candidates =
      [fallbackCandidate] :=
  (parse_crew_result_never_empty "plain prose with no table" 3).2
    (by decide) (by decide)

/-- Claim C2: every candidate record produced by the extractor, on every
path, has a score in the closed interval [1, 10]. -/
theorem parse_crew_result_score_in_range (t : String) (n : Nat) :
    ∀ c ∈ (parse_crew_result t n).candidates, 1 ≤ c.score ∧ c.score ≤ 10 :=
  parse_cands_inv _
    (fun l k => by rw [mkCandT1_score]; exact parseScoreT1_bounds _)
    (fun l k => by rw [mkCandT2_score]; exact parseScoreT2_bounds _)
    ⟨by norm_num [fallbackCandidate], by norm_num [fallbackCandidate]⟩ t n

theorem parse_crew_result_score_in_range_witness :
    1 ≤ fallbackCandidate.score ∧ fallbackCandidate.score ≤ 10 :=
  parse_crew_result_score_in_range "" 0 fallbackCandidate (by decide)

/-- Claim C3 counterexample: a row parsed by the loose tier with raw score
"95" is clamped to 10, not divided by ten to 9.5 — the claimed rule does
not apply in every tier. -/
theorem loose_tier_score_not_divided :
    (parse_crew_result exC3 1).candidates.map CandidateEvaluation.score = [10] ∧
      (10 : ℚ) ≠ mkRat 95 10 := by
  constructor <;> decide

/-- Claim C3 (amended): in the strict tier, a parsed row whose score cell
has a first numeric token above ten gets score value/10 clamped to [1, 10];
the loose tier instead clamps the value without dividing. -/
theorem strict_tier_score_over_ten_divided (line : List Char) (k : Nat)
    (tok : List Char × List Char)
    (h1 : firstNumTok ((rowCells line).getD 2 []) = some tok)
    (h2 : 10 < tokVal tok) :
    (mkCandT1 line k).score = pyMax 1 (pyMin 10 (tokVal tok / 10)) := by
  rw [mkCandT1_score]
  simp only [parseScoreT1, h1]
  rw [if_pos h2]
  congr 1
  congr 1
  rw [tokVal]
  exact mkRat_pow_succ_eq_div_ten _ _

theorem strict_tier_score_over_ten_divided_witness :
    (mkCandT1 "| Amy | 123 | 95 | What would you build | Good |".data 0).score =
      pyMax 1 (pyMin 10 (tokVal (['9', '5'], []) / 10)) :=
  strict_tier_score_over_ten_divided _ 0 (['9', '5'], []) (by decide) (by decide)

/-- Claim C4 (code bug): in the well-formed two-row report `exC4`, the
dash-containing data row is swallowed by the separator check, so only one
of the two rows becomes a candidate. -/
theorem dash_row_report_loses_row :
    (parse_crew_result exC4 2).candidates.map CandidateEvaluation.name =
      ["Bob Smith"] ∧
      (parse_crew_result exC4 2).candidates.length ≠ 2 := by
  constructor <;> decide

/-- Claim C5 (code bug): after the header, every line starting with the
delimiter and containing a dash is skipped — in `exC5` the data row
"Carol-Ann" is treated as a separator although a separator was already
consumed, so only "Dave" is returned. -/
theorem dash_data_row_skipped_as_separator :
    (parse_crew_result exC5 2).candidates.map CandidateEvaluation.name =
      ["Dave"] := by
  decide

/-- Claim C6 (code bug): the round-trip report is parsed by the loose tier
(its mobile cell "555-1234" makes the strict tier skip the row), so the
questions keep their numbered-list marker: "1. Tell me about X?" instead
of "Tell me about X?". -/
theorem roundtrip_report_loose_tier_output :
    (parse_crew_result exC6 1).candidates =
      [{ name := "Jane Doe", mobile := "555-1234", score := 8,
         questions := ["1. Tell me about X?"], reasoning := "Strong fit" }] := by
  decide

/-- Claim C7 counterexample: a row parsed by the loose tier keeps the
sentinel name "N/A" — the sentinel substitution does not apply in every
tier. -/
theorem loose_tier_keeps_sentinel_name :
    (parse_crew_result exC7 1).candidates.map CandidateEvaluation.name =
      ["N/A"] ∧ ("N/A" : String) ≠ "Candidate 1" := by
  constructor <;> decide

/-- Claim C7 (amended): in the strict tier, a parsed first row whose name
cell is a missing-value sentinel yields the name "Candidate 1"; the loose
tier replaces only empty names. -/
theorem strict_tier_sentinel_name_defaulted (t : String) (n : Nat)
    (hdr sep r0 : List Char) (rows : List (List Char))
    (hsplit : pyLines t.data = hdr :: sep :: r0 :: rows)
    (hm : hasHeaderMarkers t.data = true)
    (hhdr : isHeaderLine (pyStrip hdr) = true)
    (hsep1 : isHeaderLine (pyStrip sep) = false)
    (hsep2 : ['|'].isPrefixOf (pyStrip sep) = true)
    (hsep3 : (pyStrip sep).contains '-' = true)
    (hrows : ∀ r ∈ r0 :: rows, isGoodRow r = true)
    (hname : isMissingField ((rowCells (pyStrip r0)).getD 0 []) = true) :
    ((parse_crew_result t n).candidates.map CandidateEvaluation.name).head? =
      some "Candidate 1" := by
  rw [parse_wellformed t n hdr sep (r0 :: rows) hsplit hm hhdr hsep1 hsep2 hsep3
    hrows (List.cons_ne_nil _ _)]
  simp only [rowsToCands, List.map_cons, List.head?_cons]
  rw [mkCandT1_name_missing _ _ hname]
  decide

theorem strict_tier_sentinel_name_defaulted_witness :
    ((parse_crew_result exW7 1).candidates.map CandidateEvaluation.name).head? =
      some "Candidate 1" :=
  strict_tier_sentinel_name_defaulted exW7 1
    "| Name | Mobile | Score | Questions | Reasoning |".data
    "|---|---|---|---|---|".data
    "| N/A | 12345 | 8 | Anything else today | Ok |".data []
    (by decide) (by decide) (by decide) (by decide) (by decide) (by decide)
    (by decide) (by decide)

/-- Claim C8: every question string produced by the extractor, on every
path, ends with a question mark. -/
theorem parse_crew_result_questions_end_qmark (t : String) (n : Nat) :
    ∀ c ∈ (parse_crew_result t n).candidates, ∀ q ∈ c.questions,
      q.data.getLast? = some '?' :=
  parse_cands_inv _
    (fun l k => by rw [mkCandT1_questions]; exact parseQuestionsT1_qmark _)
    (fun l k => by rw [mkCandT2_questions]; exact parseQuestionsT2_qmark _)
    (by decide) t n

theorem parse_crew_result_questions_end_qmark_witness :
    ("Tell me about your experience relevant to this role?" : String).data.getLast? =
      some '?' :=
  parse_crew_result_questions_end_qmark "" 0 fallbackCandidate (by decide)
    "Tell me about your experience relevant to this role?" (by decide)

/-- Claim C9: the `total_candidates` field always echoes the input file
count, on every path. -/
theorem parse_crew_result_total_eq_input_count (t : String) (n : Nat) :
    (parse_crew_result t n).total_candidates = n := rfl

/-- Claim C10: when the three header markers do not all occur in the
report, the job analysis is exactly the placeholder string. -/
theorem no_markers_job_analysis_placeholder (t : String) (n : Nat)
    (h : hasHeaderMarkers t.data = false) :
    (parse_crew_result t n).job_analysis =
      "Job requirements analysis completed." := by
  have h1 : tier1 t.data = initT1 := by
    unfold tier1
    rw [if_neg (by rw [h]; exact Bool.false_ne_true)]
  simp only [parse_crew_result, h1]
  rfl

theorem no_markers_job_analysis_placeholder_witness :
    (parse_crew_result "plain prose report" 2).job_analysis =
      "Job requirements analysis completed." :=
  no_markers_job_analysis_placeholder "plain prose report" 2 (by decide)
